import Mathlib

/-!
Verification of the Moon component wrapper in src/packages/moon/src/index.js and
of the executor test expectations in the JSX test source. JavaScript objects are
embedded as association lists from string keys to an inductive value type. The
lifecycle entry points create, update and destroy are embedded as pure functions
returning the list of calls they issue, the event emitter methods on, off and
emit are embedded over a per instance event map, and Moon itself is embedded as
a function from the argument object and the ambient global state to the mutated
object, the new global state and a result. The compiler and the executor are not
part of the sources; where a claim needs them they are modelled from the spec
and the doc comment of the modelling definition says so. Millisecond timestamps
are passed around opaquely and embedded as integers.
-/

/-- Association list lookup over string keys: a JavaScript property read, with
none playing the role of undefined for a missing key. -/
def alistGet {α : Type} : List (String × α) → String → Option α
  | [], _ => none
  | kv :: rest, k => if kv.1 = k then some kv.2 else alistGet rest k

/-- Association list write: a JavaScript property assignment, replacing the
entry in place when the key exists and appending it otherwise. -/
def alistSet {α : Type} : List (String × α) → String → α → List (String × α)
  | [], k, v => [(k, v)]
  | kv :: rest, k, v => if kv.1 = k then (k, v) :: rest else kv :: alistSet rest k v

/-- Association list delete: the JavaScript delete operator on a property. -/
def alistDel {α : Type} : List (String × α) → String → List (String × α)
  | [], _ => []
  | kv :: rest, k => if kv.1 = k then alistDel rest k else kv :: alistDel rest k

/-- Keys of an association list. -/
def keysOf {α : Type} (l : List (String × α)) : List String := l.map Prod.fst

/-- Names of the methods installed on the shared prototype by Moon, lines 229
to 235 of index.js. -/
inductive MethodRef where
  | createMethod
  | updateMethod
  | destroyMethod
  | onMethod
  | offMethod
  | emitMethod
deriving DecidableEq

/-- JavaScript values appearing as properties in this development. Functions
carry a numeric identity; Function.prototype.bind yields a new function object
that is never reference equal to the original, so bound copies are a separate
constructor. The constructor emptyArr stands for the fresh empty array assigned
to the property m on line 229 of index.js, and compiledView stands for the
object of compiled view routines. -/
inductive Value where
  | undef
  | str (s : String)
  | num (n : Int)
  | fn (id : Nat)
  | boundFn (id : Nat)
  | compiledView (id : Nat)
  | emptyArr
  | methodV (m : MethodRef)
deriving DecidableEq

/-- Property read defaulting to undefined, as in JavaScript. -/
def getProps (props : List (String × Value)) (k : String) : Value :=
  (alistGet props k).getD Value.undef

/-- A JavaScript object: ordinary properties, plus the events property held as
a separate field because its value is an object of handler arrays. Objects of
this repository never store anything else under the key events. -/
structure Obj where
  props : List (String × Value)
  events : Option (List (String × List Value))
deriving DecidableEq

/-- Property read on an object. -/
def oget (o : Obj) (k : String) : Value := getProps o.props k

/-- Property write on an object. -/
def oset (o : Obj) (k : String) (v : Value) : Obj :=
  { o with props := alistSet o.props k v }

/-- Property delete on an object. -/
def odel (o : Obj) (k : String) : Obj :=
  { o with props := alistDel o.props k }

/-- A component instance as seen by the prototype methods of index.js: its
properties and the event map that the expression this.events resolves to. -/
structure MInstance where
  props : List (String × Value)
  events : List (String × List Value)
deriving DecidableEq

/-- Function.prototype.bind as used on line 97 and line 99 of index.js: the
result is a new function object, distinct by identity from the original. Only
original functions are ever bound by the sources modelled here. -/
def bindV : Value → Value
  | Value.fn i => Value.boundFn i
  | v => v

/-- JavaScript Array.prototype.indexOf: the position of the first entry equal
to the argument, and -1 when there is none. -/
def jsIndexOf {α : Type} [DecidableEq α] : List α → α → Int
  | [], _ => -1
  | a :: as, h =>
    if a = h then 0
    else
      let r := jsIndexOf as h
      if r = -1 then -1 else r + 1

/-- JavaScript Array.prototype.splice with delete count one: a negative start
counts from the end of the array and is clamped at zero. -/
def spliceRemoveOne {α : Type} (l : List α) (start : Int) : List α :=
  let a : Nat := if start < 0 then ((l.length : Int) + start).toNat else min start.toNat l.length
  l.take a ++ l.drop (a + 1)

/-- The runtime errors thrown by the wrapper methods: reading a property of
undefined throws a TypeError. -/
inductive JsErr where
  | typeError
deriving DecidableEq

/-- The method on, lines 93 to 101 of index.js: pushes a bound copy of the
handler onto the handler array of the given type, creating the array when the
type has no entry yet. -/
def onEv (inst : MInstance) (type : String) (handler : Value) : MInstance :=
  match alistGet inst.events type with
  | none => { inst with events := alistSet inst.events type [bindV handler] }
  | some handlers => { inst with events := alistSet inst.events type (handlers ++ [bindV handler]) }

/-- The method off, lines 112 to 121 of index.js: with no arguments it replaces
the event map with a fresh empty object, with only a type it replaces that
handler array with a fresh empty array, and with both it splices at the index
returned by indexOf. When the type has no handler array, the splice call on
undefined throws a TypeError. -/
def off (inst : MInstance) (type : Option String) (handler : Option Value) :
    Except JsErr MInstance :=
  match type with
  | none => Except.ok { inst with events := [] }
  | some t =>
    match handler with
    | none => Except.ok { inst with events := alistSet inst.events t [] }
    | some h =>
      match alistGet inst.events t with
      | none => Except.error JsErr.typeError
      | some handlers =>
        Except.ok
          { inst with events := alistSet inst.events t (spliceRemoveOne handlers (jsIndexOf handlers h)) }

/-- The method emit, lines 129 to 135 of index.js: reads the handler array of
the given type and calls each handler in order with the data. Reading length of
undefined throws a TypeError when the type has no entry. The result is the
ordered list of performed calls, each a pair of handler and argument. -/
def emit (inst : MInstance) (type : String) (data : Option Value) :
    Except JsErr (List (Value × Option Value)) :=
  match alistGet inst.events type with
  | none => Except.error JsErr.typeError
  | some handlers => Except.ok (handlers.map (fun h => (h, data)))

/-- Which view routine a lifecycle entry point passes to execute: the property
create, update or destroy of the compiled view object of the instance. -/
inductive RoutineTag where
  | createR
  | updateR
  | destroyR
deriving DecidableEq

/-- The completion callback closure passed to execute by each entry point,
identified by which entry point built it and whether a next function was
supplied by the caller. -/
inductive CallbackSpec where
  | createCb (hasNext : Bool)
  | updateCb (hasNext : Bool)
  | destroyCb (hasNext : Bool)
deriving DecidableEq

/-- One call of execute with its five arguments in order, as issued by the
entry points of index.js: flags, start time, scope, view routine and completion
callback. -/
structure ExecuteCall where
  flags : Int
  startTime : Int
  scope : MInstance
  routine : RoutineTag
  onComplete : CallbackSpec
deriving DecidableEq

/-- An observable action of a lifecycle entry point, in program order: the call
of this.view.data on line 21, or a call of execute. -/
inductive WrapperAction where
  | viewDataA
  | executeA (c : ExecuteCall)
deriving DecidableEq

/-- The start time argument: the given start, or the current reading of the
millisecond clock when start is undefined, as on lines 25, 52 and 74. -/
def startOf (start : Option Int) (now : Int) : Int :=
  match start with
  | none => now
  | some s => s

/-- The for in loop of update on lines 46 to 48: every key of the data argument
is assigned onto the instance, in order. -/
def copyKeys : List (String × Value) → List (String × Value) → List (String × Value)
  | props, [] => props
  | props, kv :: rest => copyKeys (alistSet props kv.1 kv.2) rest

/-- The entry point create, lines 20 to 36 of index.js: calls this.view.data,
then calls execute once with flags 0, the start time, the instance, the create
routine of the view, and the create completion callback. -/
def create (inst : MInstance) (hasNext : Bool) (start : Option Int) (now : Int) :
    MInstance × List WrapperAction :=
  (inst,
    [WrapperAction.viewDataA,
     WrapperAction.executeA
       ⟨0, startOf start now, inst, RoutineTag.createR, CallbackSpec.createCb hasNext⟩])

/-- The entry point update, lines 45 to 63 of index.js: copies every key of the
data argument onto the instance, then calls execute once with flags 0, the start
time, the instance, the update routine of the view, and the update completion
callback. -/
def update (inst : MInstance) (data : List (String × Value)) (hasNext : Bool)
    (start : Option Int) (now : Int) : MInstance × List WrapperAction :=
  let inst' : MInstance := { inst with props := copyKeys inst.props data }
  (inst',
    [WrapperAction.executeA
      ⟨0, startOf start now, inst', RoutineTag.updateR, CallbackSpec.updateCb hasNext⟩])

/-- The entry point destroy, lines 71 to 85 of index.js: calls execute once
with flags 0, the start time, the instance, the destroy routine of the view,
and the destroy completion callback. -/
def destroy (inst : MInstance) (hasNext : Bool) (start : Option Int) (now : Int) :
    MInstance × List WrapperAction :=
  (inst,
    [WrapperAction.executeA
      ⟨0, startOf start now, inst, RoutineTag.destroyR, CallbackSpec.destroyCb hasNext⟩])

/-- The calls of execute contained in an action trace, in order. -/
def executeCallsOf (acts : List WrapperAction) : List ExecuteCall :=
  acts.filterMap (fun a =>
    match a with
    | WrapperAction.executeA c => some c
    | WrapperAction.viewDataA => none)

/-- One step performed by a completion callback when the executor invokes it:
an emit of a lifecycle event, possibly carrying the new element, or a call of
the caller supplied next function. -/
inductive CallbackAction where
  | emitA (type : String) (element : Option Nat)
  | nextA (element : Option Nat)
deriving DecidableEq

/-- The body of each completion callback closure of index.js, lines 28 to 34,
55 to 61 and 77 to 83: first this.emit of the lifecycle event, with the element
only for create, then the next function when one was given, with the element
only for create. -/
def runCallback : CallbackSpec → Nat → List CallbackAction
  | CallbackSpec.createCb hasNext, element =>
    CallbackAction.emitA "create" (some element) ::
      (if hasNext then [CallbackAction.nextA (some element)] else [])
  | CallbackSpec.updateCb hasNext, _ =>
    CallbackAction.emitA "update" none ::
      (if hasNext then [CallbackAction.nextA none] else [])
  | CallbackSpec.destroyCb hasNext, _ =>
    CallbackAction.emitA "destroy" none ::
      (if hasNext then [CallbackAction.nextA none] else [])

/-- Modelled from the spec: the executor is not under src. Per section 4.4,
when the walk of an execute call completes, onComplete is invoked exactly once
with the root live node; this definition returns the actions of that single
invocation. -/
def executeRun (c : ExecuteCall) (rootElement : Nat) : List CallbackAction :=
  runCallback c.onComplete rootElement

/-- Recognizer for an emit action. -/
def isEmitA : CallbackAction → Bool
  | CallbackAction.emitA _ _ => true
  | CallbackAction.nextA _ => false

/-- Recognizer for a next action. -/
def isNextA : CallbackAction → Bool
  | CallbackAction.nextA _ => true
  | CallbackAction.emitA _ _ => false

/-- Whether the first emit action of a callback trace occurs strictly after the
first next action. -/
def emissionAfterNext (l : List CallbackAction) : Bool :=
  match l.findIdx? isNextA, l.findIdx? isEmitA with
  | some i, some j => decide (i < j)
  | _, _ => false

/-- The ambient browser state read and written by Moon: the global component
store of line 11 of index.js, and the value of the browser global name that the
registration on line 248 reads. -/
structure MoonGlobal where
  components : List (String × Nat)
  windowName : String
deriving DecidableEq

/-- The value returned by Moon: the component constructor with the mutated data
object as its shared prototype, or a mounted instance when a root was given.
Constructors are identified by a number supplied by the caller of the
embedding. -/
inductive MoonResult where
  | ctor (ctorId : Nat) (proto : Obj)
  | instR (ctorId : Nat) (proto : Obj)
deriving DecidableEq

/-- Everything observable about one call of Moon: the mutated data object, the
new ambient state, the wrapper actions performed before returning, and the
returned value or the propagated compile error. -/
structure MoonOut where
  data : Obj
  glob : MoonGlobal
  trace : List WrapperAction
  result : Except String MoonResult

/-- The part of Moon after view compilation, lines 192 to 258 of index.js: the
lifecycle hooks are read and deleted, the events object is created and seeded
with the hooks, the prototype assignment writes m and the six methods onto the
data object itself, the root property is read and deleted, and then either the
constructor is registered in the global store under the value of the browser
global name and returned, or an instance is constructed and its create entry
point runs with the mount callback as next. -/
def moonAfterCompile (g : MoonGlobal) (ctorId : Nat) (now : Int) (d0 : Obj) : MoonOut :=
  let onCreateV := oget d0 "onCreate"
  let onUpdateV := oget d0 "onUpdate"
  let onDestroyV := oget d0 "onDestroy"
  let d1 := odel (odel (odel d0 "onCreate") "onUpdate") "onDestroy"
  let d2 : Obj :=
    { d1 with events := some (
        [("create", if onCreateV = Value.undef then [] else [onCreateV]),
         ("update", if onUpdateV = Value.undef then [] else [onUpdateV]),
         ("destroy", if onDestroyV = Value.undef then [] else [onDestroyV])]) }
  let d3 := oset d2 "m" Value.emptyArr
  let d4 := oset d3 "create" (Value.methodV MethodRef.createMethod)
  let d5 := oset d4 "update" (Value.methodV MethodRef.updateMethod)
  let d6 := oset d5 "destroy" (Value.methodV MethodRef.destroyMethod)
  let d7 := oset d6 "on" (Value.methodV MethodRef.onMethod)
  let d8 := oset d7 "off" (Value.methodV MethodRef.offMethod)
  let d9 := oset d8 "emit" (Value.methodV MethodRef.emitMethod)
  let rootV := oget d9 "root"
  let d10 := odel d9 "root"
  if rootV = Value.undef then
    ⟨d10, { g with components := alistSet g.components g.windowName ctorId },
      [], Except.ok (MoonResult.ctor ctorId d10)⟩
  else
    let inst : MInstance := ⟨d10.props, (d10.events).getD []⟩
    ⟨d10, g, (create inst true none now).2, Except.ok (MoonResult.instR ctorId d10)⟩

/-- The Moon entry point, lines 175 to 259 of index.js, embedded in production
mode. The compiler is not under src, so the compile function is a parameter
that either returns a compiled view or throws; a thrown compile error
propagates out of Moon with the trace empty and the ambient state unchanged,
exactly as in the source where the call of compile on line 187 precedes every
other effect except the name default of line 177. -/
def Moon (compileF : String → Except String Nat) (g : MoonGlobal) (ctorId : Nat)
    (now : Int) (data0 : Obj) : MoonOut :=
  let data1 := oset data0 "name"
    (if oget data0 "name" = Value.undef then Value.str "Root" else oget data0 "name")
  match oget data1 "view" with
  | Value.str s =>
    (match compileF s with
     | Except.error e => ⟨data1, g, [], Except.error e⟩
     | Except.ok rid => moonAfterCompile g ctorId now (oset data1 "view" (Value.compiledView rid)))
  | _ => moonAfterCompile g ctorId now data1

/-- The property keys that Moon writes or deletes on its argument object: the
enumerated ones of the claim plus the seven written by the prototype
assignment. The events property is held in the separate events field of the
object embedding. -/
def moonKeys : List String :=
  ["name", "view", "onCreate", "onUpdate", "onDestroy", "root", "m",
   "create", "update", "destroy", "on", "off", "emit"]

/-- The identity of the module level function handler1 of the test source. -/
def handler1Id : Nat := 1

/-- The identity of the module level function handler2 of the test source. -/
def handler2Id : Nat := 2

/-- The three conditional branches of the list item template in the test
source: the if branch for even items, the else if branch for items divisible by
three, and the else branch. -/
inductive Branch where
  | evenBranch
  | multipleOfThreeBranch
  | elseBranch
deriving DecidableEq

/-- The branch selected for an item by the template of ExecutorTest, lines 31
to 39 of the test source: if item mod 2 is zero, else if item mod 3 is zero,
else the plain branch. -/
def classify (item : Nat) : Branch :=
  if item % 2 = 0 then Branch.evenBranch
  else if item % 3 = 0 then Branch.multipleOfThreeBranch
  else Branch.elseBranch

/-- The observable state of one rendered list item, carrying exactly the
facets checked by the verify function of the test source: tag, lang, class,
htmlFor, id, the aria data and style categories, the bound click handler, and
the text content. -/
structure RenderedItem where
  tag : String
  lang : String
  className : String
  htmlFor : Option Nat
  idAttr : String
  ariaset : List (String × String)
  dataset : List (String × String)
  style : List (String × String)
  clickHandler : Option Nat
  text : String
deriving DecidableEq

/-- The element produced for one list item by the template of ExecutorTest,
lines 31 to 39 of the test source: the if branch for even items binds handler1
and carries the removeme entries, the else if branch for items divisible by
three binds handler2 and carries the different entries and an id, and the else
branch is a plain paragraph with only lang and text. -/
def renderItem (item idx : Nat) : RenderedItem :=
  if item % 2 = 0 then
    ⟨"P", "en", toString item, some item, "",
      [("hidden", "false"), ("removeme", "true")],
      [("foo", "bar"), ("removeme", "true")],
      [("color", "red"), ("background", "blue")],
      some handler1Id, toString item ++ toString idx⟩
  else if item % 3 = 0 then
    ⟨"P", "en", toString item, some item, toString item,
      [("hidden", "false"), ("different", "true")],
      [("foo", "bar"), ("different", "true")],
      [("color", "red"), ("fontSize", "20px")],
      some handler2Id, toString item ++ toString idx⟩
  else
    ⟨"P", "en", "", none, "", [], [], [], none, toString item ++ toString idx⟩

/-- Modelled from the spec: the executor is not under src. Per sections 4.4 and
8, after a patch the live children of the list match the new view description
produced by the template, item by item in order, with stale attribute entries
and stale event bindings removed. This is the state of the live children after
the executor patches the list to the given values. -/
def renderList (list : List Nat) : List RenderedItem :=
  list.enum.map (fun p => renderItem p.2 p.1)

/-- Modelled from the spec: the executor is not under src. Per sections 4.3 and
4.4, an object valued attribute category is diffed key by key: keys present in
the old description and absent in the new one are explicitly removed from the
live node, and every entry of the new description is written. The live argument
is the category state of the live node before the patch. -/
def patchCategory {α : Type} (old new live : List (String × α)) : List (String × α) :=
  let pruned := live.filter
    (fun kv => decide (kv.1 ∉ keysOf old) || decide (kv.1 ∈ keysOf new))
  new.foldl (fun acc kv => alistSet acc kv.1 kv.2) pruned

/-- A concrete instance used by witnesses: one custom property and the three
seeded event types. -/
def instEx : MInstance :=
  ⟨[("id", Value.num 1)], [("create", []), ("update", []), ("destroy", [])]⟩

/-- A concrete instance used by witnesses: one click handler list holding a
bound copy. -/
def instEx2 : MInstance := ⟨[], [("click", [Value.boundFn 1])]⟩

/-- A concrete ambient state used by witnesses: empty component store and the
usual empty browser global name. -/
def gEx : MoonGlobal := ⟨[], ""⟩

/-- A concrete data object with a string view, a create hook and a custom
property. -/
def dataEx : Obj :=
  ⟨[("view", Value.str "tpl"), ("onCreate", Value.fn 9), ("custom", Value.num 3)], none⟩

/-- A concrete data object with a name and a precompiled view. -/
def dataEx2 : Obj := ⟨[("name", Value.str "A"), ("view", Value.compiledView 3)], none⟩

/-- A concrete data object with a precompiled view and a custom property named
m, the name also written by the prototype assignment. -/
def dataEx3 : Obj := ⟨[("view", Value.compiledView 0), ("m", Value.num 5)], none⟩

/-- A compile function that always succeeds. -/
def compileOkEx : String → Except String Nat := fun _ => Except.ok 4

/-- A compile function that always throws a syntax error. -/
def compileErrEx : String → Except String Nat := fun _ => Except.error "SyntaxError"

/-- Lookup after a write: the written key reads back the new value, any other
key is unchanged. -/
theorem alistGet_set {α : Type} (l : List (String × α)) (k k' : String) (v : α) :
    alistGet (alistSet l k v) k' = if k' = k then some v else alistGet l k' := by
  induction l with
  | nil =>
    by_cases h : k' = k
    · subst h; simp [alistSet, alistGet]
    · simp [alistSet, alistGet, h, Ne.symm h]
  | cons kv rest ih =>
    by_cases hk : kv.1 = k
    · by_cases h : k' = k
      · subst h; simp [alistSet, alistGet, hk]
      · have h1 : k ≠ k' := Ne.symm h
        have h2 : kv.1 ≠ k' := by rw [hk]; exact h1
        simp [alistSet, alistGet, hk, h, h1, h2]
    · by_cases h2 : kv.1 = k'
      · have h : k' ≠ k := by rw [← h2]; exact hk
        simp [alistSet, alistGet, hk, h2, h]
      · simp [alistSet, alistGet, hk, h2, ih]

/-- Lookup after a delete: the deleted key reads back nothing, any other key is
unchanged. -/
theorem alistGet_del {α : Type} (l : List (String × α)) (k k' : String) :
    alistGet (alistDel l k) k' = if k' = k then none else alistGet l k' := by
  induction l with
  | nil => simp [alistDel, alistGet]
  | cons kv rest ih =>
    by_cases hk : kv.1 = k
    · by_cases h : k' = k
      · subst h; simp [alistDel, alistGet, hk, ih]
      · have h1 : k ≠ k' := Ne.symm h
        have h2 : kv.1 ≠ k' := by rw [hk]; exact h1
        simp [alistDel, alistGet, hk, h, h1, h2, ih]
    · by_cases h2 : kv.1 = k'
      · have h : k' ≠ k := by rw [← h2]; exact hk
        simp [alistDel, alistGet, hk, h2, h]
      · simp [alistDel, alistGet, hk, h2, ih]

/-- Defaulting property read after a write. -/
theorem getProps_set (l : List (String × Value)) (k k' : String) (v : Value) :
    getProps (alistSet l k v) k' = if k' = k then v else getProps l k' := by
  by_cases h : k' = k <;> simp [getProps, alistGet_set, h]

/-- Defaulting property read after a delete. -/
theorem getProps_del (l : List (String × Value)) (k k' : String) :
    getProps (alistDel l k) k' = if k' = k then Value.undef else getProps l k' := by
  by_cases h : k' = k <;> simp [getProps, alistGet_del, h]

/-- Object property read after a write. -/
theorem oget_oset (o : Obj) (k k' : String) (v : Value) :
    oget (oset o k v) k' = if k' = k then v else oget o k' := by
  simp [oget, oset, getProps_set]

/-- Object property read after a delete. -/
theorem oget_odel (o : Obj) (k k' : String) :
    oget (odel o k) k' = if k' = k then Value.undef else oget o k' := by
  simp [oget, odel, getProps_del]

/-- Replacing the events field leaves every ordinary property unchanged. -/
theorem oget_events_update (o : Obj) (ev : Option (List (String × List Value))) (k : String) :
    oget { o with events := ev } k = oget o k := rfl

/-- A property write leaves the events field unchanged. -/
theorem oset_events (o : Obj) (k : String) (v : Value) : (oset o k v).events = o.events := rfl

/-- A property delete leaves the events field unchanged. -/
theorem odel_events (o : Obj) (k : String) : (odel o k).events = o.events := rfl

/-- indexOf returns -1 on a list that holds no entry equal to the argument. -/
theorem jsIndexOf_eq_neg_one {α : Type} [DecidableEq α] (l : List α) (h : α)
    (hall : ∀ x ∈ l, x ≠ h) : jsIndexOf l h = -1 := by
  induction l with
  | nil => rfl
  | cons a as ih =>
    have ha : a ≠ h := hall a (by simp)
    have ih' := ih (fun x hx => hall x (by simp [hx]))
    simp [jsIndexOf, ha, ih']

/-- Splicing one entry at -1 removes exactly the last entry. -/
theorem spliceRemoveOne_neg_one {α : Type} (l : List α) :
    spliceRemoveOne l (-1) = l.dropLast := by
  cases l with
  | nil => rfl
  | cons a as =>
    have hlen : ((((a :: as).length : Int)) + -1).toNat = (a :: as).length - 1 := by
      omega
    simp only [spliceRemoveOne]
    rw [if_pos (by omega : (-1 : Int) < 0), hlen]
    have h1 : (a :: as).length - 1 + 1 = (a :: as).length := by simp
    rw [h1, List.drop_length, List.append_nil, ← List.dropLast_eq_take]

/-- C8: the method on stores a bound copy of the handler, so the handler array
never holds the original function by identity, and the method off called with
the original handler finds index -1 and therefore splices off the last handler
of the array, not the bound copy of the argument. -/
theorem c8_on_binds_off_removes_last (inst : MInstance) (t : String) (i : Nat)
    (hs : List Value) (hlook : alistGet inst.events t = some hs)
    (hbound : ∀ x ∈ hs, ∃ j, x = Value.boundFn j) (_hne : hs ≠ []) :
    alistGet (onEv inst t (Value.fn i)).events t = some (hs ++ [Value.boundFn i]) ∧
    Value.fn i ∉ hs ++ [Value.boundFn i] ∧
    off inst (some t) (some (Value.fn i)) =
      Except.ok { inst with events := alistSet inst.events t hs.dropLast } := by
  refine ⟨?_, ?_, ?_⟩
  · simp [onEv, hlook, bindV, alistGet_set]
  · intro hmem
    rcases List.mem_append.mp hmem with hmem | hmem
    · rcases hbound _ hmem with ⟨j, hj⟩
      exact Value.noConfusion hj
    · simp at hmem
  · have hidx : jsIndexOf hs (Value.fn i) = -1 := by
      apply jsIndexOf_eq_neg_one
      intro x hx
      rcases hbound x hx with ⟨j, hj⟩
      subst hj
      intro hcontra
      exact Value.noConfusion hcontra
    simp [off, hlook, hidx, spliceRemoveOne_neg_one]

/-- Witness for C8 at a concrete instance holding one bound handler. -/
theorem c8_witness :
    alistGet (onEv instEx2 "click" (Value.fn 1)).events "click" =
      some ([Value.boundFn 1] ++ [Value.boundFn 1]) ∧
    Value.fn 1 ∉ [Value.boundFn 1] ++ [Value.boundFn 1] ∧
    off instEx2 (some "click") (some (Value.fn 1)) =
      Except.ok { instEx2 with events := alistSet instEx2.events "click" [Value.boundFn 1].dropLast } :=
  c8_on_binds_off_removes_last instEx2 "click" 1 [Value.boundFn 1] rfl
    (by intro x hx; simp at hx; subst hx; exact ⟨1, rfl⟩) (by simp)

/-- C10: emit calls every registered handler in registration order with the
data, and throws a TypeError for a type with no entry in the event map,
including the built in create type after off with no arguments resets the event
map to an empty object. -/
theorem c10_emit_order_and_throw (inst inst2 : MInstance) (t t2 : String)
    (d d2 d3 : Option Value) (hs : List Value)
    (h1 : alistGet inst.events t = some hs)
    (h2 : alistGet inst2.events t2 = none) :
    emit inst t d = Except.ok (hs.map (fun h => (h, d))) ∧
    emit (onEv (onEv inst2 t2 (Value.fn 1)) t2 (Value.fn 2)) t2 d2 =
      Except.ok [(Value.boundFn 1, d2), (Value.boundFn 2, d2)] ∧
    emit inst2 t2 d2 = Except.error JsErr.typeError ∧
    off inst2 none none = Except.ok { inst2 with events := [] } ∧
    emit { inst2 with events := [] } "create" d3 = Except.error JsErr.typeError := by
  refine ⟨?_, ?_, ?_, ?_, ?_⟩
  · simp [emit, h1]
  · simp [onEv, h2, bindV, alistGet_set, emit]
  · simp [emit, h2]
  · rfl
  · rfl

/-- Witness for C10 at concrete instances. -/
theorem c10_witness :
    (alistGet instEx2.events "click" = some [Value.boundFn 1] ∧
     alistGet instEx.events "click" = none) ∧
    emit instEx2 "click" (some (Value.num 0)) =
      Except.ok ([Value.boundFn 1].map (fun h => (h, some (Value.num 0)))) ∧
    emit { instEx with events := [] } "create" none = Except.error JsErr.typeError :=
  ⟨⟨rfl, rfl⟩,
   (c10_emit_order_and_throw instEx2 instEx "click" "click" (some (Value.num 0)) none none
      [Value.boundFn 1] rfl rfl).1,
   (c10_emit_order_and_throw instEx2 instEx "click" "click" (some (Value.num 0)) none none
      [Value.boundFn 1] rfl rfl).2.2.2.2⟩

/-- Copying keys leaves a property outside the copied keys unchanged. -/
theorem copyKeys_not_mem (d : List (String × Value)) (props : List (String × Value))
    (k : String) (hk : k ∉ keysOf d) : getProps (copyKeys props d) k = getProps props k := by
  induction d generalizing props with
  | nil => rfl
  | cons kv rest ih =>
    simp [keysOf] at hk
    push_neg at hk
    rw [copyKeys]
    rw [ih _ (by simp [keysOf]; exact hk.2)]
    rw [getProps_set]
    simp [hk.1]

/-- Copying keys writes each copied entry onto the target when the copied keys
are free of duplicates. -/
theorem copyKeys_mem (d : List (String × Value)) (props : List (String × Value))
    (k : String) (v : Value) (hnd : (keysOf d).Nodup) (hmem : (k, v) ∈ d) :
    getProps (copyKeys props d) k = v := by
  induction d generalizing props with
  | nil => simp at hmem
  | cons kv rest ih =>
    have hnd' : (kv.1 :: keysOf rest).Nodup := by
      rw [keysOf, List.map_cons] at hnd
      exact hnd
    have hhead : kv.1 ∉ keysOf rest := (List.nodup_cons.mp hnd').1
    have htail : (keysOf rest).Nodup := (List.nodup_cons.mp hnd').2
    rw [copyKeys]
    rcases List.mem_cons.mp hmem with heq | hmem2
    · have hk1 : kv.1 = k := by rw [← heq]
      have hk2 : kv.2 = v := by rw [← heq]
      have hnotin : k ∉ keysOf rest := by rw [← hk1]; exact hhead
      rw [copyKeys_not_mem rest _ k hnotin, hk1, hk2, getProps_set]
      simp
    · exact ih _ htail hmem2

/-- C7: each lifecycle entry point calls execute exactly once with the five
arguments in order: the integer flags value zero, the given start or the clock
reading when start is undefined, the instance itself as scope, the matching
view routine, and a completion callback. The update entry point first copies
every key of its data argument onto the instance. -/
theorem c7_execute_arguments (inst : MInstance) (d : List (String × Value)) (hasNext : Bool)
    (start : Option Int) (now : Int) (hnd : (keysOf d).Nodup) :
    executeCallsOf (create inst hasNext start now).2 =
      [⟨0, startOf start now, inst, RoutineTag.createR, CallbackSpec.createCb hasNext⟩] ∧
    executeCallsOf (update inst d hasNext start now).2 =
      [⟨0, startOf start now, (update inst d hasNext start now).1, RoutineTag.updateR,
        CallbackSpec.updateCb hasNext⟩] ∧
    executeCallsOf (destroy inst hasNext start now).2 =
      [⟨0, startOf start now, inst, RoutineTag.destroyR, CallbackSpec.destroyCb hasNext⟩] ∧
    (start = none → startOf start now = now) ∧
    (∀ s, start = some s → startOf start now = s) ∧
    (∀ kv ∈ d, getProps ((update inst d hasNext start now).1).props kv.1 = kv.2) ∧
    (∀ k, k ∉ keysOf d →
      getProps ((update inst d hasNext start now).1).props k = getProps inst.props k) := by
  refine ⟨rfl, rfl, rfl, ?_, ?_, ?_, ?_⟩
  · intro h; subst h; rfl
  · intro s h; subst h; rfl
  · intro kv hkv
    show getProps (copyKeys inst.props d) kv.1 = kv.2
    exact copyKeys_mem d inst.props kv.1 kv.2 hnd (by simpa using hkv)
  · intro k hk
    show getProps (copyKeys inst.props d) k = getProps inst.props k
    exact copyKeys_not_mem d inst.props k hk

/-- Witness for C7 at a concrete instance and data object. -/
theorem c7_witness :
    (keysOf [("x", Value.num 2)]).Nodup ∧
    getProps ((update instEx [("x", Value.num 2)] true none 5).1).props "x" = Value.num 2 :=
  ⟨by simp [keysOf],
   (c7_execute_arguments instEx [("x", Value.num 2)] true none 5 (by simp [keysOf])).2.2.2.2.2.1
     ("x", Value.num 2) (by simp)⟩

/-- C3 counterexample: the entry points of index.js perform no serialization.
In the scenario of the claim the walk of the first call is still pending when
update is called, yet the combined wrapper trace holds the execute call of
update immediately after the execute call of create, with no completion in
between and no queueing of any kind; the executor contract of the spec starts
its walk at once, so a second walk over the same subtree begins while the first
is in flight, refuting the claim that the lifecycle wrapper queues the new walk
behind the completion of the current one. -/
theorem c3_counterexample :
    (create instEx false none 0).2 ++
      (update (create instEx false none 0).1 [] false none 1).2 =
      [WrapperAction.viewDataA,
       WrapperAction.executeA ⟨0, 0, instEx, RoutineTag.createR, CallbackSpec.createCb false⟩,
       WrapperAction.executeA ⟨0, 1, instEx, RoutineTag.updateR, CallbackSpec.updateCb false⟩] :=
  rfl

/-- C3 amended: the lifecycle wrapper performs no serialization at all; each of
create and update issues its execute call immediately and unconditionally, so a
call made while a previous walk is pending starts a second walk rather than
queueing behind the completion of the first. -/
theorem c3_no_serialization_in_wrapper (inst : MInstance) (d : List (String × Value))
    (hasNext1 hasNext2 : Bool) (now1 now2 : Int) :
    (create inst hasNext1 none now1).2 ++
      (update ((create inst hasNext1 none now1).1) d hasNext2 none now2).2 =
      [WrapperAction.viewDataA,
       WrapperAction.executeA ⟨0, now1, inst, RoutineTag.createR, CallbackSpec.createCb hasNext1⟩,
       WrapperAction.executeA ⟨0, now2, { inst with props := copyKeys inst.props d },
         RoutineTag.updateR, CallbackSpec.updateCb hasNext2⟩] :=
  rfl

/-- C6 counterexample: in the completion callback that create passes to
execute, the emit of the create event runs before the caller supplied next
function, not after it, so the stated order executor then completion callback
then lifecycle event emission does not hold. -/
theorem c6_counterexample :
    executeRun ⟨0, 0, instEx, RoutineTag.createR, CallbackSpec.createCb true⟩ 7 =
      [CallbackAction.emitA "create" (some 7), CallbackAction.nextA (some 7)] ∧
    emissionAfterNext
      (executeRun ⟨0, 0, instEx, RoutineTag.createR, CallbackSpec.createCb true⟩ 7) = false := by
  exact ⟨rfl, rfl⟩

/-- C6 amended: when the walk of the execute call issued by create completes,
the completion callback runs exactly once with the root live node; it first
emits the create event carrying that node and only then calls the caller
supplied next function with the same node, when one was given. -/
theorem c6_create_callback (inst : MInstance) (hasNext : Bool) (start : Option Int)
    (now : Int) (e : Nat) (c : ExecuteCall)
    (hc : WrapperAction.executeA c ∈ (create inst hasNext start now).2) :
    executeRun c e =
      CallbackAction.emitA "create" (some e) ::
        (if hasNext then [CallbackAction.nextA (some e)] else []) := by
  simp [create] at hc
  subst hc
  rfl

/-- Witness for C6 at a concrete execute call issued by create. -/
theorem c6_witness :
    (WrapperAction.executeA ⟨0, 3, instEx, RoutineTag.createR, CallbackSpec.createCb true⟩ ∈
      (create instEx true (some 3) 9).2) ∧
    executeRun ⟨0, 3, instEx, RoutineTag.createR, CallbackSpec.createCb true⟩ 7 =
      CallbackAction.emitA "create" (some 7) ::
        (if true then [CallbackAction.nextA (some 7)] else []) :=
  ⟨by decide, c6_create_callback instEx true (some 3) 9 7 _ (by decide)⟩

/-- C2: evaluation of Moon at the failing input. The registration on line 248
of index.js indexes the global component store with the browser global name,
which is the empty string in a browser, rather than with data.name: with
data.name equal to A and no root given, the store afterwards has no entry under
A and maps the empty string to the returned constructor. -/
theorem c2_registry_keyed_by_global_name :
    alistGet (Moon compileOkEx gEx 7 0 dataEx2).glob.components "A" = none ∧
    alistGet (Moon compileOkEx gEx 7 0 dataEx2).glob.components "" = some 7 ∧
    (Moon compileOkEx gEx 7 0 dataEx2).result =
      Except.ok (MoonResult.ctor 7 (Moon compileOkEx gEx 7 0 dataEx2).data) :=
  ⟨rfl, rfl, rfl⟩

/-- C5: when the view is a string and compilation throws, the error propagates
out of Moon itself: the result is the error, the wrapper trace is empty so no
executor walk was ever started, and the ambient state is unchanged so no
constructor was registered and no instance was constructed. -/
theorem c5_compile_error_propagates (compileF : String → Except String Nat)
    (g : MoonGlobal) (ctorId : Nat) (now : Int) (data0 : Obj) (s e : String)
    (hview : oget data0 "view" = Value.str s) (hc : compileF s = Except.error e) :
    (Moon compileF g ctorId now data0).result = Except.error e ∧
    (Moon compileF g ctorId now data0).trace = [] ∧
    (Moon compileF g ctorId now data0).glob = g := by
  have hview1 : oget (oset data0 "name"
      (if oget data0 "name" = Value.undef then Value.str "Root" else oget data0 "name"))
      "view" = Value.str s := by
    rw [oget_oset]
    simp [hview]
  refine ⟨?_, ?_, ?_⟩ <;> simp [Moon, hview1, hc]

/-- Witness for C5 at a concrete data object and failing compile function. -/
theorem c5_witness :
    (oget ⟨[("view", Value.str "bad")], none⟩ "view" = Value.str "bad" ∧
     compileErrEx "bad" = Except.error "SyntaxError") ∧
    (Moon compileErrEx gEx 0 0 ⟨[("view", Value.str "bad")], none⟩).result =
      Except.error "SyntaxError" ∧
    (Moon compileErrEx gEx 0 0 ⟨[("view", Value.str "bad")], none⟩).trace = [] ∧
    (Moon compileErrEx gEx 0 0 ⟨[("view", Value.str "bad")], none⟩).glob = gEx :=
  ⟨⟨rfl, rfl⟩,
   c5_compile_error_propagates compileErrEx gEx 0 0 ⟨[("view", Value.str "bad")], none⟩
     "bad" "SyntaxError" rfl rfl⟩

/-- C9 counterexample: Moon does not leave every property outside the ones the
claim enumerates unchanged. The prototype assignment on line 229 of index.js
writes a fresh empty array onto the property m of the data object, so a data
object entering with m equal to the number five leaves with m equal to the
empty array. -/
theorem c9_counterexample :
    oget dataEx3 "m" = Value.num 5 ∧
    oget (Moon compileOkEx gEx 7 0 dataEx3).data "m" = Value.emptyArr ∧
    Value.num 5 ≠ Value.emptyArr :=
  ⟨rfl, rfl, by decide⟩

/-- C9 amended: Moon mutates its argument object in place. It deletes the three
hooks and root, defaults name to Root, replaces a string view with the compiled
routine, seeds the events map with the deleted hooks, and, through the
prototype assignment, also writes m and the six methods onto the object; every
property outside these keys is unchanged, and the mutated object itself is the
prototype carried by the returned constructor. -/
theorem c9_moon_mutation (compileF : String → Except String Nat) (g : MoonGlobal)
    (ctorId : Nat) (now : Int) (data0 : Obj) (s : String) (rid : Nat)
    (hview : oget data0 "view" = Value.str s) (hc : compileF s = Except.ok rid)
    (hroot : oget data0 "root" = Value.undef) :
    oget (Moon compileF g ctorId now data0).data "onCreate" = Value.undef ∧
    oget (Moon compileF g ctorId now data0).data "onUpdate" = Value.undef ∧
    oget (Moon compileF g ctorId now data0).data "onDestroy" = Value.undef ∧
    oget (Moon compileF g ctorId now data0).data "root" = Value.undef ∧
    oget (Moon compileF g ctorId now data0).data "name" =
      (if oget data0 "name" = Value.undef then Value.str "Root" else oget data0 "name") ∧
    oget (Moon compileF g ctorId now data0).data "view" = Value.compiledView rid ∧
    (Moon compileF g ctorId now data0).data.events = some
      [("create", if oget data0 "onCreate" = Value.undef then [] else [oget data0 "onCreate"]),
       ("update", if oget data0 "onUpdate" = Value.undef then [] else [oget data0 "onUpdate"]),
       ("destroy", if oget data0 "onDestroy" = Value.undef then [] else [oget data0 "onDestroy"])] ∧
    oget (Moon compileF g ctorId now data0).data "m" = Value.emptyArr ∧
    oget (Moon compileF g ctorId now data0).data "create" = Value.methodV MethodRef.createMethod ∧
    oget (Moon compileF g ctorId now data0).data "update" = Value.methodV MethodRef.updateMethod ∧
    oget (Moon compileF g ctorId now data0).data "destroy" = Value.methodV MethodRef.destroyMethod ∧
    oget (Moon compileF g ctorId now data0).data "on" = Value.methodV MethodRef.onMethod ∧
    oget (Moon compileF g ctorId now data0).data "off" = Value.methodV MethodRef.offMethod ∧
    oget (Moon compileF g ctorId now data0).data "emit" = Value.methodV MethodRef.emitMethod ∧
    (∀ k, k ∉ moonKeys → oget (Moon compileF g ctorId now data0).data k = oget data0 k) ∧
    (Moon compileF g ctorId now data0).result =
      Except.ok (MoonResult.ctor ctorId (Moon compileF g ctorId now data0).data) := by
  have hview1 : oget (oset data0 "name"
      (if oget data0 "name" = Value.undef then Value.str "Root" else oget data0 "name"))
      "view" = Value.str s := by
    rw [oget_oset]
    simp [hview]
  have hframe : ∀ k, k ∉ moonKeys →
      oget (Moon compileF g ctorId now data0).data k = oget data0 k := by
    intro k hk
    simp only [moonKeys, List.mem_cons, List.not_mem_nil, or_false, not_or] at hk
    obtain ⟨hk1, hk2, hk3, hk4, hk5, hk6, hk7, hk8, hk9, hk10, hk11, hk12, hk13⟩ := hk
    simp [Moon, hview1, hc, moonAfterCompile, oget_oset, oget_odel, oget_events_update,
      hroot, hk1, hk2, hk3, hk4, hk5, hk6, hk7, hk8, hk9, hk10, hk11, hk12, hk13]
  refine ⟨?_, ?_, ?_, ?_, ?_, ?_, ?_, ?_, ?_, ?_, ?_, ?_, ?_, ?_, hframe, ?_⟩ <;>
    simp [Moon, hview1, hc, moonAfterCompile, oget_oset, oget_odel, oget_events_update,
      oset_events, odel_events, hroot, hview]

/-- Witness for C9 at a concrete data object with a custom property. -/
theorem c9_witness :
    (oget dataEx "view" = Value.str "tpl" ∧ compileOkEx "tpl" = Except.ok 4 ∧
     oget dataEx "root" = Value.undef) ∧
    oget (Moon compileOkEx gEx 7 0 dataEx).data "custom" = Value.num 3 :=
  ⟨⟨rfl, rfl, rfl⟩,
   (c9_moon_mutation compileOkEx gEx 7 0 dataEx "tpl" 4 rfl rfl
      rfl).2.2.2.2.2.2.2.2.2.2.2.2.2.2.1 "custom" (by decide)⟩

/-- C1 counterexample: five is odd and not divisible by three, so the template
classifies it into the else branch, and the live item after the patch to the
list holding five is not the element the claim describes for the else if
branch. -/
theorem c1_counterexample :
    classify 5 = Branch.elseBranch ∧
    ¬ (5 % 3 = 0) ∧
    renderList [5] ≠
      [⟨"P", "en", "5", some 5, "5",
        [("hidden", "false"), ("different", "true")],
        [("foo", "bar"), ("different", "true")],
        [("color", "red"), ("fontSize", "20px")],
        some handler2Id, "50"⟩] := by
  refine ⟨rfl, by decide, by decide⟩

/-- C1 amended: patching the list from the singleton two to the singleton five
replaces the even branch item, which carried the click binding of handler1,
with the else branch item for five: a plain paragraph with lang en, empty
class, no htmlFor, empty id, empty aria data and style categories, text 50, and
no click handler at all, so the click binding of the previous item no longer
fires. -/
theorem c1_replace_else_branch :
    renderList [2] =
      [⟨"P", "en", "2", some 2, "",
        [("hidden", "false"), ("removeme", "true")],
        [("foo", "bar"), ("removeme", "true")],
        [("color", "red"), ("background", "blue")],
        some handler1Id, "20"⟩] ∧
    renderList [5] = [⟨"P", "en", "", none, "", [], [], [], none, "50"⟩] ∧
    (renderList [5]).map RenderedItem.clickHandler = [none] := by
  refine ⟨by decide, by decide, by decide⟩

/-- A key outside a list stays outside after one write of a different key. -/
theorem not_mem_keys_alistSet {α : Type} (l : List (String × α)) (k' k : String) (v : α)
    (hne : k ≠ k') (hl : k ∉ keysOf l) : k ∉ keysOf (alistSet l k' v) := by
  induction l with
  | nil => simp [alistSet, keysOf, hne]
  | cons kv rest ih =>
    simp [keysOf] at hl
    push_neg at hl
    by_cases hk : kv.1 = k'
    · simp [alistSet, hk, keysOf]
      push_neg
      exact ⟨hne, hl.2⟩
    · simp [alistSet, hk, keysOf]
      push_neg
      refine ⟨hl.1, ?_⟩
      have h := ih (by simp [keysOf]; exact hl.2)
      simpa [keysOf] using h

/-- A key outside both the accumulator and the written entries stays outside
the fold of writes. -/
theorem not_mem_keys_foldl {α : Type} (new acc : List (String × α)) (k : String)
    (hk : k ∉ keysOf new) (hacc : k ∉ keysOf acc) :
    k ∉ keysOf (new.foldl (fun acc kv => alistSet acc kv.1 kv.2) acc) := by
  induction new generalizing acc with
  | nil => simpa using hacc
  | cons kv rest ih =>
    simp [keysOf] at hk
    push_neg at hk
    simp only [List.foldl_cons]
    refine ih _ ?_ ?_
    · simp [keysOf]
      exact hk.2
    · exact not_mem_keys_alistSet acc kv.1 k kv.2 hk.1 hacc

/-- C4: in the modelled attribute category patch, every key present in the old
description and absent in the new one is absent from the live node afterwards,
for any object valued category and for event bindings alike. -/
theorem c4_stale_keys_removed {α : Type} (old new live : List (String × α)) (k : String)
    (hold : k ∈ keysOf old) (hnew : k ∉ keysOf new) :
    k ∉ keysOf (patchCategory old new live) := by
  have hpruned : k ∉ keysOf (live.filter
      (fun kv => decide (kv.1 ∉ keysOf old) || decide (kv.1 ∈ keysOf new))) := by
    intro hmem
    rw [keysOf, List.mem_map] at hmem
    rcases hmem with ⟨kv, hkv, hk⟩
    rw [List.mem_filter] at hkv
    rcases hkv with ⟨_, hp⟩
    rw [hk] at hp
    simp [hold, hnew] at hp
  simp only [patchCategory]
  exact not_mem_keys_foldl new _ k hnew hpruned

/-- Witness for C4 at the dataset category of the even branch item patched to
the else if branch item, the removeme key of the test source. -/
theorem c4_witness :
    ("removeme" ∈ keysOf (renderItem 2 0).dataset ∧
     "removeme" ∉ keysOf (renderItem 3 0).dataset) ∧
    "removeme" ∉ keysOf (patchCategory (renderItem 2 0).dataset (renderItem 3 0).dataset
      (renderItem 2 0).dataset) :=
  ⟨⟨by decide, by decide⟩,
   c4_stale_keys_removed (renderItem 2 0).dataset (renderItem 3 0).dataset
     (renderItem 2 0).dataset "removeme" (by decide) (by decide)⟩
